import Mathlib

/-!
Shallow embedding of the tourist-route optimizer
(`src/route_optimizer.py`, together with the duplicated optimizer class in
`src/streamlit_app.py`, embedded separately in namespace `StApp`).

Modelling conventions:

* Numbers are exact rationals: the Python floats are idealized as exact
  arithmetic, as the specification itself does for its algebraic claims.
* The transcendental functions of the Python `math` module used by
  Hubeny's formula (`math.radians`, `math.sin`, `math.cos`, `math.sqrt`,
  and `math.pow · 1.5`) are abstracted as a bundle of function parameters
  `TrigOps`; every claim under verification depends only on the algebraic
  shape of the computation, never on a particular value of the sine.
* The pandas DataFrame `spots_df` is a `List Spot` in row order.  The row
  selection `spots_df[spots_df['スポット名'] == s].iloc[0]`, which raises
  `IndexError` (the spec's `NotFound`) when no row matches, is modelled by
  `List.find?`; a raised error is the `none` of the surrounding `Option`.
* A Python `dict` built by iterating over a duplicate-free list is an
  association list in insertion order; `dict[k]` is `List.lookup`.
* `sorted(·, key=·)` is a stable insertion sort; `min`/`max` with `key`
  return the first encountered optimum, modelled by a left fold that
  replaces the current best only on a strict improvement.
-/

namespace RouteOpt

/-- The `math`-module operations used by the optimizer, abstracted as
parameters.  `pow15 x` stands for `math.pow x 1.5`. -/
structure TrigOps where
  sin : ℚ → ℚ
  cos : ℚ → ℚ
  sqrt : ℚ → ℚ
  pow15 : ℚ → ℚ
  radians : ℚ → ℚ

/-- One row of the spots DataFrame: スポット名 (name), 緯度 (lat), 経度 (lon),
最低所要時間 (minimum visit duration), おすすめ度 (recommendation score).
The free-text 説明 column is never read by the optimizer and is omitted. -/
structure Spot where
  name : String
  lat : ℚ
  lon : ℚ
  minTime : ℚ
  score : ℚ
deriving DecidableEq, Repr

/-- `spots_df[spots_df['スポット名'] == nm].iloc[0]`: first row whose
スポット名 equals `nm`; `none` models the raised `IndexError`/`NotFound`. -/
def findSpot (df : List Spot) (nm : String) : Option Spot :=
  df.find? (fun s => s.name == nm)

/-- `Option`-valued map over a list, written as explicit recursion; models a
Python `for` loop that builds a list/dict entry per element and may raise on
a failed lookup. -/
def omapM {α β : Type} (f : α → Option β) : List α → Option (List β)
  | [] => some []
  | a :: l => do
    let b ← f a
    let bs ← omapM f l
    pure (b :: bs)

/-- Stable insertion (for modelling Python's stable `sorted`): the new
element `x` is placed after every already-sorted element `y` with
`keep y x = true`. -/
def insertBy (keep : String × ℚ → String × ℚ → Bool) (x : String × ℚ) :
    List (String × ℚ) → List (String × ℚ)
  | [] => [x]
  | y :: ys => if keep y x then y :: insertBy keep x ys else x :: y :: ys

/-- Stable sort by repeated insertion, scanning the input left to right. -/
def sortKeepBy (keep : String × ℚ → String × ℚ → Bool)
    (l : List (String × ℚ)) : List (String × ℚ) :=
  l.foldl (fun acc x => insertBy keep x acc) []

/-- `sorted(items, key=lambda x: x[1])`: ascending by second component,
stable (ties keep insertion order). -/
def sortAscBySnd (l : List (String × ℚ)) : List (String × ℚ) :=
  sortKeepBy (fun y x => decide (y.2 ≤ x.2)) l

/-- `sorted(items, key=lambda x: x[1], reverse=True)`: descending by second
component, stable (ties keep insertion order). -/
def sortDescBySnd (l : List (String × ℚ)) : List (String × ℚ) :=
  sortKeepBy (fun y x => decide (x.2 ≤ y.2)) l

/-- `for rank, (spot, _) in enumerate(sorted_spots, start): ranking[spot] = rank`. -/
def rankify : ℕ → List (String × ℚ) → List (String × ℕ)
  | _, [] => []
  | r, (s, _) :: rest => (s, r) :: rankify (r + 1) rest

/-- Python `min(items, key=lambda x: x[1])` over rank sums: left fold that
replaces the current best only on a strictly smaller key, hence returns the
first encountered minimum; `none` models the `ValueError` on an empty
iterable. -/
def pyMin (l : List (String × ℕ)) : Option (String × ℕ) :=
  match l with
  | [] => none
  | x :: xs => some (xs.foldl (fun best y => if y.2 < best.2 then y else best) x)

/-- Python `max(items, key=...)` over rational keys: left fold that replaces
the current best only on a strictly larger key, hence returns the first
encountered maximum. -/
def pyMax (l : List (String × ℚ)) : Option (String × ℚ) :=
  match l with
  | [] => none
  | x :: xs => some (xs.foldl (fun best y => if best.2 < y.2 then y else best) x)

/-- `RouteOptimizer.calculate_distance` of `src/route_optimizer.py`
(lines 16-53): Hubeny's formula over the WGS84 ellipsoid, returning
kilometers. -/
def calculate_distance (T : TrigOps) (lat1 lon1 lat2 lon2 : ℚ) : ℚ :=
  let lat1_rad := T.radians lat1
  let lon1_rad := T.radians lon1
  let lat2_rad := T.radians lat2
  let lon2_rad := T.radians lon2
  let P := (lat1_rad + lat2_rad) / 2
  let Dy := lat1_rad - lat2_rad
  let Dx := lon1_rad - lon2_rad
  let a : ℚ := 6378137.0
  let b : ℚ := 6356752.314245
  let e2 := (a ^ 2 - b ^ 2) / a ^ 2
  let M := a * (1 - e2) / T.pow15 (1 - e2 * (T.sin P) ^ 2)
  let N := a / T.sqrt (1 - e2 * (T.sin P) ^ 2)
  let dist := T.sqrt ((Dy * M) ^ 2 + (Dx * N * T.cos P) ^ 2)
  dist / 1000

/-- `RouteOptimizer.calculate_time_decrease_rate_ranking` (lines 80-104):
efficiency = おすすめ度 / 最低所要時間 per spot, stable sort descending,
ranks 1..N in sorted order.  (The unused `current_time=0` parameter of the
Python signature is dropped.) -/
def calculate_time_decrease_rate_ranking (df : List Spot)
    (spots : List String) : Option (List (String × ℕ)) := do
  let effs ← omapM (fun sp => do
    let d ← findSpot df sp
    pure (sp, d.score / d.minTime)) spots
  pure (rankify 1 (sortDescBySnd effs))

/-- `RouteOptimizer.calculate_distance_ranking` (lines 106-137): with no
current spot, every remaining spot gets rank 1; otherwise distances from the
current spot, stable sort ascending, ranks 1..N. -/
def calculate_distance_ranking (T : TrigOps) (df : List Spot)
    (current : Option String) (remaining : List String) :
    Option (List (String × ℕ)) :=
  match current with
  | none => some (remaining.map fun sp => (sp, 1))
  | some cur => do
    let curd ← findSpot df cur
    let dists ← omapM (fun sp => do
      let d ← findSpot df sp
      pure (sp, calculate_distance T curd.lat curd.lon d.lat d.lon)) remaining
    pure (rankify 1 (sortAscBySnd dists))

/-- `RouteOptimizer.calculate_distance_ranking_from_location` (lines 139-165):
distances from an explicit coordinate, stable sort ascending, ranks 1..N. -/
def calculate_distance_ranking_from_location (T : TrigOps) (df : List Spot)
    (lat lon : ℚ) (remaining : List String) : Option (List (String × ℕ)) := do
  let dists ← omapM (fun sp => do
    let d ← findSpot df sp
    pure (sp, calculate_distance T lat lon d.lat d.lon)) remaining
  pure (rankify 1 (sortAscBySnd dists))

/-- The `while remaining_spots:` loop of `optimize_route` (lines 209-225),
with fuel equal to the length of `remaining` on entry (each iteration
removes exactly one member, so the fuel never runs out on the paths the
function is called on).  The second component of the result counts the
selection steps performed, i.e. how many times a spot was appended to
`optimized_route`. -/
def optimizeLoopAux (T : TrigOps) (df : List Spot) :
    ℕ → List String → String → List String → Option (List String × ℕ)
  | 0, _, _, route => some (route, 0)
  | _ + 1, [], _, route => some (route, 0)
  | fuel + 1, sp0 :: rest, current, route => do
    let remaining := sp0 :: rest
    let tr ← calculate_time_decrease_rate_ranking df remaining
    let dr ← calculate_distance_ranking T df (some current) remaining
    let scores ← omapM (fun sp => do
      let a ← List.lookup sp tr
      let b ← List.lookup sp dr
      pure (sp, a + b)) remaining
    let best ← pyMin scores
    let (r, k) ← optimizeLoopAux T df fuel (remaining.erase best.1) best.1
      (route ++ [best.1])
    pure (r, k + 1)

/-- `RouteOptimizer.optimize_route` (lines 167-227), instrumented: the
second component of the result counts how many selection steps appended a
spot to `optimized_route` (0 on the `len(selected_spots) <= 1` shortcut). -/
def optimizeRouteAux (T : TrigOps) (df : List Spot) (selected : List String)
    (loc : Option (ℚ × ℚ)) : Option (List String × ℕ) :=
  if selected.length ≤ 1 then some (selected, 0)
  else
    match loc with
    | some (lat, lon) => do
      let dr ← calculate_distance_ranking_from_location T df lat lon selected
      let tr ← calculate_time_decrease_rate_ranking df selected
      let scores ← omapM (fun sp => do
        let a ← List.lookup sp dr
        let b ← List.lookup sp tr
        pure (sp, a + b)) selected
      let best ← pyMin scores
      let (r, k) ← optimizeLoopAux T df (selected.erase best.1).length
        (selected.erase best.1) best.1 [best.1]
      pure (r, k + 1)
    | none => do
      let keyed ← omapM (fun sp => do
        let d ← findSpot df sp
        pure (sp, d.score)) selected
      let best ← pyMax keyed
      let (r, k) ← optimizeLoopAux T df (selected.erase best.1).length
        (selected.erase best.1) best.1 [best.1]
      pure (r, k + 1)

/-- `RouteOptimizer.optimize_route`: the route returned to the caller. -/
def optimize_route (T : TrigOps) (df : List Spot) (selected : List String)
    (loc : Option (ℚ × ℚ)) : Option (List String) :=
  (optimizeRouteAux T df selected loc).map Prod.fst

/-- Python `round(q, n)` idealized over exact rationals: round half to even
at the `n`-th decimal. -/
def roundHalfEven (q : ℚ) : ℤ :=
  let f := ⌊q⌋
  if q - f < 1 / 2 then f
  else if 1 / 2 < q - f then f + 1
  else if f % 2 = 0 then f else f + 1

/-- `round(q, n)` for `n` decimal places. -/
def pyRound (q : ℚ) (n : ℕ) : ℚ :=
  (roundHalfEven (q * 10 ^ n) : ℚ) / 10 ^ n

/-- The statistics record built by `calculate_route_stats`. -/
structure RouteStats where
  total_spots : ℕ
  total_time_minutes : ℚ
  total_distance_km : ℚ
  average_recommend_score : ℚ
  efficiency_score : ℚ
deriving DecidableEq, Repr

/-- Result of `calculate_route_stats`: the empty dict `{}` for an empty
route, or the five-field record. -/
inductive StatsResult where
  | empty : StatsResult
  | stats : RouteStats → StatsResult
deriving DecidableEq, Repr

/-- The accumulation loop of `calculate_route_stats` (lines 244-257):
returns `(total_time, total_distance, total_recommend_score)`; a missing
spot makes the whole computation fail, as in the source. -/
def statsFold (T : TrigOps) (df : List Spot) : List String → Option (ℚ × ℚ × ℚ)
  | [] => some (0, 0, 0)
  | sp :: rest => do
    let d ← findSpot df sp
    match rest with
    | [] => pure (d.minTime, 0, d.score)
    | next :: _ => do
      let nd ← findSpot df next
      let (t, dist, s) ← statsFold T df rest
      pure (d.minTime + t,
            calculate_distance T d.lat d.lon nd.lat nd.lon + dist,
            d.score + s)

/-- `RouteOptimizer.calculate_route_stats` (lines 229-265). -/
def calculate_route_stats (T : TrigOps) (df : List Spot)
    (route : List String) : Option StatsResult :=
  match route with
  | [] => some .empty
  | _ :: _ => do
    let (t, dist, s) ← statsFold T df route
    pure (.stats
      { total_spots := route.length
        total_time_minutes := t
        total_distance_km := pyRound dist 2
        average_recommend_score := pyRound (s / (route.length : ℚ)) 1
        efficiency_score := pyRound (s / (t / 60)) 2 })

/-- Sum of the distances of the `N-1` consecutive legs of a route, expressed
over the already-looked-up rows (used to state the closed form of the
distance accumulation in `calculate_route_stats`). -/
def legsSum (T : TrigOps) : List Spot → ℚ
  | d :: nd :: rest =>
    calculate_distance T d.lat d.lon nd.lat nd.lon + legsSum T (nd :: rest)
  | _ => 0

/-- Reference definition following the spec's wording of the tie-break rule
(§4.3/§9): "choose the candidate with the minimum combined score; first
encountered minimum wins".  Scans the list left to right; an earlier entry
beats a later one with an equal key. -/
def specFirstArgmin : List (String × ℕ) → Option (String × ℕ)
  | [] => none
  | p :: rest =>
    match specFirstArgmin rest with
    | none => some p
    | some q => if p.2 ≤ q.2 then some p else some q

/-- Reference definition following the spec's wording (§4.3): "choose the
candidate with the maximum recommendation score (first encountered maximum
wins on ties)". -/
def specFirstArgmax : List (String × ℚ) → Option (String × ℚ)
  | [] => none
  | p :: rest =>
    match specFirstArgmax rest with
    | none => some p
    | some q => if q.2 ≤ p.2 then some p else some q

/-- Reference definition following the spec's §4.1 step list word for word:
mean latitude `P`, differences `Δy`/`Δx`, WGS84 constants, meridional and
transverse curvature radii, and `sqrt((Δy·M)² + (Δx·N·cos P)²) / 1000`. -/
def hubenySpecFormula (T : TrigOps) (lat1 lon1 lat2 lon2 : ℚ) : ℚ :=
  let P := (T.radians lat1 + T.radians lat2) / 2
  let dy := T.radians lat1 - T.radians lat2
  let dx := T.radians lon1 - T.radians lon2
  let e2 := ((6378137.0 : ℚ) ^ 2 - (6356752.314245 : ℚ) ^ 2) / (6378137.0 : ℚ) ^ 2
  let m := (6378137.0 : ℚ) * (1 - e2) / T.pow15 (1 - e2 * (T.sin P) ^ 2)
  let n := (6378137.0 : ℚ) / T.sqrt (1 - e2 * (T.sin P) ^ 2)
  T.sqrt ((dy * m) ^ 2 + (dx * n * T.cos P) ^ 2) / 1000

/-- A concrete instantiation of the abstract `math` operations, used by the
witness theorems (which only ever exercise the catalog/bookkeeping logic,
never a particular trigonometric value). -/
def idTrig : TrigOps :=
  { sin := fun x => x
    cos := fun x => x
    sqrt := fun x => x
    pow15 := fun x => x
    radians := fun x => x }

/-- A small concrete catalog used by the witness theorems (durations and
scores as in the spec's end-to-end scenario of §8; integer coordinates so
that witness facts evaluate by kernel reduction). -/
def demoDf : List Spot :=
  [⟨"A", 33, 130, 60, 5⟩,
   ⟨"B", 34, 131, 30, 3⟩,
   ⟨"C", 32, 129, 90, 4⟩]

end RouteOpt

namespace StApp

open RouteOpt

/-- The row selection of the duplicated `RouteOptimizer` class in
`src/streamlit_app.py` (same pandas expression as in
`src/route_optimizer.py`). -/
def findSpot (df : List Spot) (nm : String) : Option Spot :=
  df.find? (fun s => s.name == nm)

/-- `RouteOptimizer.calculate_distance` of `src/streamlit_app.py`
(lines 47-77). -/
def calculate_distance (T : TrigOps) (lat1 lon1 lat2 lon2 : ℚ) : ℚ :=
  let lat1_rad := T.radians lat1
  let lon1_rad := T.radians lon1
  let lat2_rad := T.radians lat2
  let lon2_rad := T.radians lon2
  let P := (lat1_rad + lat2_rad) / 2
  let Dy := lat1_rad - lat2_rad
  let Dx := lon1_rad - lon2_rad
  let a : ℚ := 6378137.0
  let b : ℚ := 6356752.314245
  let e2 := (a ^ 2 - b ^ 2) / a ^ 2
  let M := a * (1 - e2) / T.pow15 (1 - e2 * (T.sin P) ^ 2)
  let N := a / T.sqrt (1 - e2 * (T.sin P) ^ 2)
  let dist := T.sqrt ((Dy * M) ^ 2 + (Dx * N * T.cos P) ^ 2)
  dist / 1000

/-- `RouteOptimizer.calculate_time_decrease_rate_ranking` of
`src/streamlit_app.py` (lines 79-94). -/
def calculate_time_decrease_rate_ranking (df : List Spot)
    (spots : List String) : Option (List (String × ℕ)) := do
  let effs ← omapM (fun sp => do
    let d ← StApp.findSpot df sp
    pure (sp, d.score / d.minTime)) spots
  pure (rankify 1 (sortDescBySnd effs))

/-- `RouteOptimizer.calculate_distance_ranking` of `src/streamlit_app.py`
(lines 96-118). -/
def calculate_distance_ranking (T : TrigOps) (df : List Spot)
    (current : Option String) (remaining : List String) :
    Option (List (String × ℕ)) :=
  match current with
  | none => some (remaining.map fun sp => (sp, 1))
  | some cur => do
    let curd ← StApp.findSpot df cur
    let dists ← omapM (fun sp => do
      let d ← StApp.findSpot df sp
      pure (sp, StApp.calculate_distance T curd.lat curd.lon d.lat d.lon))
      remaining
    pure (rankify 1 (sortAscBySnd dists))

/-- `RouteOptimizer.calculate_distance_ranking_from_location` of
`src/streamlit_app.py` (lines 120-138). -/
def calculate_distance_ranking_from_location (T : TrigOps) (df : List Spot)
    (lat lon : ℚ) (remaining : List String) : Option (List (String × ℕ)) := do
  let dists ← omapM (fun sp => do
    let d ← StApp.findSpot df sp
    pure (sp, StApp.calculate_distance T lat lon d.lat d.lon)) remaining
  pure (rankify 1 (sortAscBySnd dists))

/-- The `while remaining_spots:` loop of `optimize_route` in
`src/streamlit_app.py` (lines 173-184), with fuel equal to the length of
`remaining` on entry. -/
def optimizeLoop (T : TrigOps) (df : List Spot) :
    ℕ → List String → String → List String → Option (List String)
  | 0, _, _, route => some route
  | _ + 1, [], _, route => some route
  | fuel + 1, sp0 :: rest, current, route => do
    let remaining := sp0 :: rest
    let tr ← StApp.calculate_time_decrease_rate_ranking df remaining
    let dr ← StApp.calculate_distance_ranking T df (some current) remaining
    let scores ← omapM (fun sp => do
      let a ← List.lookup sp tr
      let b ← List.lookup sp dr
      pure (sp, a + b)) remaining
    let best ← pyMin scores
    StApp.optimizeLoop T df fuel (remaining.erase best.1) best.1
      (route ++ [best.1])

/-- `RouteOptimizer.optimize_route` of `src/streamlit_app.py`
(lines 140-186). -/
def optimize_route (T : TrigOps) (df : List Spot) (selected : List String)
    (loc : Option (ℚ × ℚ)) : Option (List String) :=
  if selected.length ≤ 1 then some selected
  else
    match loc with
    | some (lat, lon) => do
      let dr ← StApp.calculate_distance_ranking_from_location T df lat lon
        selected
      let tr ← StApp.calculate_time_decrease_rate_ranking df selected
      let scores ← omapM (fun sp => do
        let a ← List.lookup sp dr
        let b ← List.lookup sp tr
        pure (sp, a + b)) selected
      let best ← pyMin scores
      StApp.optimizeLoop T df (selected.erase best.1).length
        (selected.erase best.1) best.1 [best.1]
    | none => do
      let keyed ← omapM (fun sp => do
        let d ← StApp.findSpot df sp
        pure (sp, d.score)) selected
      let best ← pyMax keyed
      StApp.optimizeLoop T df (selected.erase best.1).length
        (selected.erase best.1) best.1 [best.1]

end StApp

namespace RouteOpt

theorem omapM_cons {α β : Type} (f : α → Option β) (a : α) (l : List α) :
    omapM f (a :: l) =
      (f a).bind fun b => (omapM f l).bind fun bs => some (b :: bs) := rfl

theorem omapM_none_of_mem {α β : Type} (f : α → Option β) :
    ∀ {l : List α} {a : α}, a ∈ l → f a = none → omapM f l = none := by
  intro l
  induction l with
  | nil => intro a ha; exact absurd ha (List.not_mem_nil a)
  | cons x xs ih =>
    intro a ha hf
    rcases List.mem_cons.mp ha with h | h
    · subst h; simp [omapM_cons, hf]
    · rcases hx : f x with _ | b
      · simp [omapM_cons, hx]
      · simp [omapM_cons, hx, ih h hf]

theorem omapM_isSome {α β : Type} (f : α → Option β) :
    ∀ {l : List α}, (∀ a ∈ l, (f a).isSome) → ∃ bs, omapM f l = some bs := by
  intro l
  induction l with
  | nil => intro _; exact ⟨[], rfl⟩
  | cons x xs ih =>
    intro h
    rcases Option.isSome_iff_exists.mp (h x (List.mem_cons_self x xs)) with ⟨b, hb⟩
    rcases ih (fun a ha => h a (List.mem_cons_of_mem x ha)) with ⟨bs, hbs⟩
    exact ⟨b :: bs, by simp [omapM_cons, hb, hbs]⟩

theorem omapM_length {α β : Type} (f : α → Option β) :
    ∀ {l : List α} {bs : List β}, omapM f l = some bs → bs.length = l.length := by
  intro l
  induction l with
  | nil => intro bs h; simp [omapM] at h; simp [← h]
  | cons x xs ih =>
    intro bs h
    rcases hx : f x with _ | b
    · simp [omapM_cons, hx] at h
    · rcases hxs : omapM f xs with _ | bs'
      · simp [omapM_cons, hx, hxs] at h
      · simp [omapM_cons, hx, hxs] at h
        subst h
        simp [ih hxs]

theorem omapM_keys {γ : Type} (f : String → Option (String × γ))
    (hf : ∀ a p, f a = some p → p.1 = a) :
    ∀ {l : List String} {bs : List (String × γ)},
      omapM f l = some bs → bs.map Prod.fst = l := by
  intro l
  induction l with
  | nil => intro bs h; simp [omapM] at h; simp [← h]
  | cons x xs ih =>
    intro bs h
    rcases hx : f x with _ | b
    · simp [omapM_cons, hx] at h
    · rcases hxs : omapM f xs with _ | bs'
      · simp [omapM_cons, hx, hxs] at h
      · simp [omapM_cons, hx, hxs] at h
        subst h
        simp [hf x b hx, ih hxs]

theorem lookup_mem_of_mem_keys {γ : Type} :
    ∀ (l : List (String × γ)) (a : String), a ∈ l.map Prod.fst →
      ∃ v, List.lookup a l = some v := by
  intro l
  induction l with
  | nil => intro a ha; simp at ha
  | cons p t ih =>
    intro a ha
    by_cases hk : a = p.1
    · exact ⟨p.2, by simp [List.lookup, hk]⟩
    · have : a ∈ t.map Prod.fst := by
        simp only [List.map_cons, List.mem_cons] at ha
        exact ha.resolve_left hk
      rcases ih a this with ⟨v, hv⟩
      refine ⟨v, ?_⟩
      have hbeq : (a == p.1) = false := beq_eq_false_iff_ne.mpr hk
      simp [List.lookup, hbeq, hv]

theorem insertBy_perm (keep : String × ℚ → String × ℚ → Bool)
    (x : String × ℚ) :
    ∀ l, (insertBy keep x l).Perm (x :: l) := by
  intro l
  induction l with
  | nil => simp [insertBy]
  | cons y ys ih =>
    by_cases h : keep y x
    · simpa [insertBy, h] using ((ih.cons y).trans (List.Perm.swap x y ys))
    · simp [insertBy, h]

theorem sortKeepBy_foldl_perm (keep : String × ℚ → String × ℚ → Bool) :
    ∀ (l acc : List (String × ℚ)),
      (l.foldl (fun acc x => insertBy keep x acc) acc).Perm (acc ++ l) := by
  intro l
  induction l with
  | nil => intro acc; simp
  | cons x xs ih =>
    intro acc
    have h1 := ih (insertBy keep x acc)
    have h2 : (insertBy keep x acc ++ xs).Perm ((x :: acc) ++ xs) :=
      (insertBy_perm keep x acc).append_right xs
    have h3 : ((x :: acc) ++ xs).Perm (acc ++ x :: xs) := by
      simpa using List.perm_middle.symm
    simpa using (h1.trans (h2.trans h3))

theorem sortKeepBy_perm (keep : String × ℚ → String × ℚ → Bool)
    (l : List (String × ℚ)) : (sortKeepBy keep l).Perm l := by
  simpa [sortKeepBy] using sortKeepBy_foldl_perm keep l []

theorem sortAscBySnd_perm (l : List (String × ℚ)) : (sortAscBySnd l).Perm l :=
  sortKeepBy_perm _ l

theorem sortDescBySnd_perm (l : List (String × ℚ)) : (sortDescBySnd l).Perm l :=
  sortKeepBy_perm _ l

theorem insertBy_pairwise (R : String × ℚ → String × ℚ → Prop)
    (keep : String × ℚ → String × ℚ → Bool)
    (htrans : ∀ a b c, R a b → R b c → R a c)
    (hT : ∀ y x, keep y x = true → R y x)
    (hF : ∀ y x, keep y x = false → R x y) (x : String × ℚ) :
    ∀ l, l.Pairwise R → (insertBy keep x l).Pairwise R := by
  intro l
  induction l with
  | nil => intro _; simp [insertBy]
  | cons y ys ih =>
    intro hl
    rcases List.pairwise_cons.mp hl with ⟨hy, hys⟩
    by_cases h : keep y x
    · have hmem : ∀ z ∈ insertBy keep x ys, R y z := by
        intro z hz
        have : z ∈ x :: ys := (insertBy_perm keep x ys).mem_iff.mp hz
        rcases List.mem_cons.mp this with h' | h'
        · exact h' ▸ hT y x h
        · exact hy z h'
      simpa [insertBy, h] using List.pairwise_cons.mpr ⟨hmem, ih hys⟩
    · have hx : R x y := hF y x (by simpa using h)
      have hmem : ∀ z ∈ y :: ys, R x z := by
        intro z hz
        rcases List.mem_cons.mp hz with h' | h'
        · exact h' ▸ hx
        · exact htrans x y z hx (hy z h')
      simpa [insertBy, h] using List.pairwise_cons.mpr ⟨hmem, hl⟩

theorem sortKeepBy_pairwise (R : String × ℚ → String × ℚ → Prop)
    (keep : String × ℚ → String × ℚ → Bool)
    (htrans : ∀ a b c, R a b → R b c → R a c)
    (hT : ∀ y x, keep y x = true → R y x)
    (hF : ∀ y x, keep y x = false → R x y) :
    ∀ (l acc : List (String × ℚ)), acc.Pairwise R →
      (l.foldl (fun acc x => insertBy keep x acc) acc).Pairwise R := by
  intro l
  induction l with
  | nil => intro acc h; simpa using h
  | cons x xs ih =>
    intro acc h
    exact ih (insertBy keep x acc) (insertBy_pairwise R keep htrans hT hF x acc h)

theorem sortAscBySnd_pairwise (l : List (String × ℚ)) :
    (sortAscBySnd l).Pairwise (fun a b => a.2 ≤ b.2) := by
  refine sortKeepBy_pairwise _ _ ?_ ?_ ?_ l [] (by simp)
  · exact fun a b c h1 h2 => le_trans h1 h2
  · intro y x h; exact of_decide_eq_true h
  · intro y x h; exact le_of_lt (lt_of_not_le (of_decide_eq_false h))

theorem sortDescBySnd_pairwise (l : List (String × ℚ)) :
    (sortDescBySnd l).Pairwise (fun a b => b.2 ≤ a.2) := by
  refine sortKeepBy_pairwise _ _ ?_ ?_ ?_ l [] (by simp)
  · exact fun a b c h1 h2 => le_trans h2 h1
  · intro y x h; exact of_decide_eq_true h
  · intro y x h; exact le_of_lt (lt_of_not_le (of_decide_eq_false h))

theorem rankify_map_fst : ∀ (r : ℕ) (l : List (String × ℚ)),
    (rankify r l).map Prod.fst = l.map Prod.fst := by
  intro r l
  induction l generalizing r with
  | nil => rfl
  | cons p rest ih => cases p with | mk s v => simp [rankify, ih]

theorem rankify_map_snd : ∀ (r : ℕ) (l : List (String × ℚ)),
    (rankify r l).map Prod.snd = List.range' r l.length := by
  intro r l
  induction l generalizing r with
  | nil => rfl
  | cons p rest ih =>
    cases p with | mk s v => simp [rankify, ih, List.range'_succ]

theorem rankify_length (r : ℕ) (l : List (String × ℚ)) :
    (rankify r l).length = l.length := by
  have := congrArg List.length (rankify_map_fst r l)
  simpa using this

theorem pyMin_foldl : ∀ (xs : List (String × ℕ)) (x : String × ℕ),
    xs.foldl (fun best y => if y.2 < best.2 then y else best) x =
      match specFirstArgmin xs with
      | none => x
      | some q => if q.2 < x.2 then q else x := by
  intro xs
  induction xs with
  | nil => intro x; rfl
  | cons p rest ih =>
    intro x
    rw [List.foldl_cons, ih]
    rcases hr : specFirstArgmin rest with _ | q
    · simp [specFirstArgmin, hr]
    · simp only [specFirstArgmin, hr]
      split_ifs <;> try dsimp only
      all_goals first
        | rfl
        | (exfalso; omega)
        | (split_ifs <;> first | rfl | (exfalso; omega))

theorem pyMin_eq_spec (l : List (String × ℕ)) : pyMin l = specFirstArgmin l := by
  cases l with
  | nil => rfl
  | cons x xs =>
    rw [pyMin, pyMin_foldl]
    rcases hr : specFirstArgmin xs with _ | q
    · simp [specFirstArgmin, hr]
    · simp only [specFirstArgmin, hr]
      split_ifs <;> first | rfl | (exfalso; omega)

theorem pyMax_foldl : ∀ (xs : List (String × ℚ)) (x : String × ℚ),
    xs.foldl (fun best y => if best.2 < y.2 then y else best) x =
      match specFirstArgmax xs with
      | none => x
      | some q => if x.2 < q.2 then q else x := by
  intro xs
  induction xs with
  | nil => intro x; rfl
  | cons p rest ih =>
    intro x
    rw [List.foldl_cons, ih]
    rcases hr : specFirstArgmax rest with _ | q
    · simp [specFirstArgmax, hr]
    · simp only [specFirstArgmax, hr]
      split_ifs <;> try dsimp only
      all_goals first
        | rfl
        | (exfalso; linarith)
        | (split_ifs <;> first | rfl | (exfalso; linarith))

theorem pyMax_eq_spec (l : List (String × ℚ)) : pyMax l = specFirstArgmax l := by
  cases l with
  | nil => rfl
  | cons x xs =>
    rw [pyMax, pyMax_foldl]
    rcases hr : specFirstArgmax xs with _ | q
    · simp [specFirstArgmax, hr]
    · simp only [specFirstArgmax, hr]
      split_ifs <;> first | rfl | (exfalso; linarith)

theorem specFirstArgmin_mem :
    ∀ {l : List (String × ℕ)} {p : String × ℕ},
      specFirstArgmin l = some p → p ∈ l := by
  intro l
  induction l with
  | nil => intro p h; simp [specFirstArgmin] at h
  | cons x xs ih =>
    intro p h
    rcases hr : specFirstArgmin xs with _ | q
    · simp [specFirstArgmin, hr] at h
      simp [← h]
    · simp only [specFirstArgmin, hr] at h
      split_ifs at h
      · injection h with h2
        subst h2
        exact List.mem_cons_self x xs
      · injection h with h2
        subst h2
        exact List.mem_cons_of_mem x (ih hr)

theorem specFirstArgmax_mem :
    ∀ {l : List (String × ℚ)} {p : String × ℚ},
      specFirstArgmax l = some p → p ∈ l := by
  intro l
  induction l with
  | nil => intro p h; simp [specFirstArgmax] at h
  | cons x xs ih =>
    intro p h
    rcases hr : specFirstArgmax xs with _ | q
    · simp [specFirstArgmax, hr] at h
      simp [← h]
    · simp only [specFirstArgmax, hr] at h
      split_ifs at h
      · injection h with h2
        subst h2
        exact List.mem_cons_self x xs
      · injection h with h2
        subst h2
        exact List.mem_cons_of_mem x (ih hr)

theorem specFirstArgmin_isSome (x : String × ℕ) (xs : List (String × ℕ)) :
    ∃ p, specFirstArgmin (x :: xs) = some p := by
  rcases hr : specFirstArgmin xs with _ | q
  · exact ⟨x, by simp [specFirstArgmin, hr]⟩
  · simp only [specFirstArgmin, hr]
    split_ifs <;> exact ⟨_, rfl⟩

theorem specFirstArgmax_isSome (x : String × ℚ) (xs : List (String × ℚ)) :
    ∃ p, specFirstArgmax (x :: xs) = some p := by
  rcases hr : specFirstArgmax xs with _ | q
  · exact ⟨x, by simp [specFirstArgmax, hr]⟩
  · simp only [specFirstArgmax, hr]
    split_ifs <;> exact ⟨_, rfl⟩

theorem pyMin_mem {l : List (String × ℕ)} {p : String × ℕ}
    (h : pyMin l = some p) : p ∈ l :=
  specFirstArgmin_mem ((pyMin_eq_spec l).symm.trans h)

theorem pyMax_mem {l : List (String × ℚ)} {p : String × ℚ}
    (h : pyMax l = some p) : p ∈ l :=
  specFirstArgmax_mem ((pyMax_eq_spec l).symm.trans h)

theorem pyMin_isSome (x : String × ℕ) (xs : List (String × ℕ)) :
    ∃ p, pyMin (x :: xs) = some p := by
  rcases specFirstArgmin_isSome x xs with ⟨p, hp⟩
  exact ⟨p, (pyMin_eq_spec (x :: xs)).trans hp⟩

theorem pyMax_isSome (x : String × ℚ) (xs : List (String × ℚ)) :
    ∃ p, pyMax (x :: xs) = some p := by
  rcases specFirstArgmax_isSome x xs with ⟨p, hp⟩
  exact ⟨p, (pyMax_eq_spec (x :: xs)).trans hp⟩

theorem time_ranking_some (df : List Spot) (spots : List String)
    (h : ∀ sp ∈ spots, (findSpot df sp).isSome) :
    ∃ effs, omapM (fun sp => do
        let d ← findSpot df sp
        pure ((sp, d.score / d.minTime) : String × ℚ)) spots = some effs ∧
      effs.map Prod.fst = spots ∧
      calculate_time_decrease_rate_ranking df spots =
        some (rankify 1 (sortDescBySnd effs)) := by
  have hs : ∀ sp ∈ spots, ((fun sp => do
      let d ← findSpot df sp
      pure ((sp, d.score / d.minTime) : String × ℚ)) sp).isSome := by
    intro sp hsp
    rcases Option.isSome_iff_exists.mp (h sp hsp) with ⟨d, hd⟩
    simp [hd]
  rcases omapM_isSome _ hs with ⟨effs, heffs⟩
  have hf : ∀ a p, (do
      let d ← findSpot df a
      pure ((a, d.score / d.minTime) : String × ℚ)) = some p → p.1 = a := by
    intro a p hp
    rcases hfa : findSpot df a with _ | d
    · simp [hfa] at hp
    · simp [hfa] at hp
      rw [← hp]
  refine ⟨effs, heffs, omapM_keys _ hf heffs, ?_⟩
  unfold calculate_time_decrease_rate_ranking
  rw [heffs]
  rfl

theorem dist_ranking_from_loc_some (T : TrigOps) (df : List Spot)
    (lat lon : ℚ) (remaining : List String)
    (h : ∀ sp ∈ remaining, (findSpot df sp).isSome) :
    ∃ dists, omapM (fun sp => do
        let d ← findSpot df sp
        pure ((sp, calculate_distance T lat lon d.lat d.lon) : String × ℚ))
        remaining = some dists ∧
      dists.map Prod.fst = remaining ∧
      calculate_distance_ranking_from_location T df lat lon remaining =
        some (rankify 1 (sortAscBySnd dists)) := by
  have hs : ∀ sp ∈ remaining, ((fun sp => do
      let d ← findSpot df sp
      pure ((sp, calculate_distance T lat lon d.lat d.lon) : String × ℚ))
        sp).isSome := by
    intro sp hsp
    rcases Option.isSome_iff_exists.mp (h sp hsp) with ⟨d, hd⟩
    simp [hd]
  rcases omapM_isSome _ hs with ⟨dists, hdists⟩
  have hf : ∀ a p, (do
      let d ← findSpot df a
      pure ((a, calculate_distance T lat lon d.lat d.lon) : String × ℚ)) =
        some p → p.1 = a := by
    intro a p hp
    rcases hfa : findSpot df a with _ | d
    · simp [hfa] at hp
    · simp [hfa] at hp
      rw [← hp]
  refine ⟨dists, hdists, omapM_keys _ hf hdists, ?_⟩
  unfold calculate_distance_ranking_from_location
  rw [hdists]
  rfl

theorem dist_ranking_some (T : TrigOps) (df : List Spot) (cur : String)
    (remaining : List String) (hc : (findSpot df cur).isSome)
    (h : ∀ sp ∈ remaining, (findSpot df sp).isSome) :
    ∃ curd dists, findSpot df cur = some curd ∧
      omapM (fun sp => do
        let d ← findSpot df sp
        pure ((sp, calculate_distance T curd.lat curd.lon d.lat d.lon) :
          String × ℚ)) remaining = some dists ∧
      dists.map Prod.fst = remaining ∧
      calculate_distance_ranking T df (some cur) remaining =
        some (rankify 1 (sortAscBySnd dists)) := by
  rcases Option.isSome_iff_exists.mp hc with ⟨curd, hcurd⟩
  have hs : ∀ sp ∈ remaining, ((fun sp => do
      let d ← findSpot df sp
      pure ((sp, calculate_distance T curd.lat curd.lon d.lat d.lon) :
        String × ℚ)) sp).isSome := by
    intro sp hsp
    rcases Option.isSome_iff_exists.mp (h sp hsp) with ⟨d, hd⟩
    simp [hd]
  rcases omapM_isSome _ hs with ⟨dists, hdists⟩
  have hf : ∀ a p, (do
      let d ← findSpot df a
      pure ((a, calculate_distance T curd.lat curd.lon d.lat d.lon) :
        String × ℚ)) = some p → p.1 = a := by
    intro a p hp
    rcases hfa : findSpot df a with _ | d
    · simp [hfa] at hp
    · simp [hfa] at hp
      rw [← hp]
  refine ⟨curd, dists, hcurd, hdists, omapM_keys _ hf hdists, ?_⟩
  unfold calculate_distance_ranking
  dsimp only
  rw [Option.bind_eq_bind', hcurd, Option.some_bind, Option.bind_eq_bind',
    hdists, Option.some_bind]
  rfl

theorem scores_some (l1 l2 : List (String × ℕ)) (spots : List String)
    (h1 : ∀ sp ∈ spots, sp ∈ l1.map Prod.fst)
    (h2 : ∀ sp ∈ spots, sp ∈ l2.map Prod.fst) :
    ∃ scored, omapM (fun sp => do
        let a ← List.lookup sp l1
        let b ← List.lookup sp l2
        pure ((sp, a + b) : String × ℕ)) spots = some scored ∧
      scored.map Prod.fst = spots := by
  have hs : ∀ sp ∈ spots, ((fun sp => do
      let a ← List.lookup sp l1
      let b ← List.lookup sp l2
      pure ((sp, a + b) : String × ℕ)) sp).isSome := by
    intro sp hsp
    rcases lookup_mem_of_mem_keys l1 sp (h1 sp hsp) with ⟨a, ha⟩
    rcases lookup_mem_of_mem_keys l2 sp (h2 sp hsp) with ⟨b, hb⟩
    simp [ha, hb]
  rcases omapM_isSome _ hs with ⟨scored, hscored⟩
  have hf : ∀ a p, (do
      let x ← List.lookup a l1
      let y ← List.lookup a l2
      pure ((a, x + y) : String × ℕ)) = some p → p.1 = a := by
    intro a p hp
    rcases hx : List.lookup a l1 with _ | x
    · simp [hx] at hp
    · rcases hy : List.lookup a l2 with _ | y
      · simp [hx, hy] at hp
      · simp [hx, hy] at hp
        rw [← hp]
  exact ⟨scored, hscored, omapM_keys _ hf hscored⟩

theorem ranked_desc_keys_perm (effs : List (String × ℚ)) (spots : List String)
    (hk : effs.map Prod.fst = spots) :
    ((rankify 1 (sortDescBySnd effs)).map Prod.fst).Perm spots := by
  rw [rankify_map_fst]
  exact hk ▸ (sortDescBySnd_perm effs).map Prod.fst

theorem ranked_asc_keys_perm (dists : List (String × ℚ)) (spots : List String)
    (hk : dists.map Prod.fst = spots) :
    ((rankify 1 (sortAscBySnd dists)).map Prod.fst).Perm spots := by
  rw [rankify_map_fst]
  exact hk ▸ (sortAscBySnd_perm dists).map Prod.fst

theorem optimizeLoopAux_cons (T : TrigOps) (df : List Spot) (fuel : ℕ)
    (sp0 : String) (rest : List String) (current : String)
    (route : List String) :
    optimizeLoopAux T df (fuel + 1) (sp0 :: rest) current route =
      (calculate_time_decrease_rate_ranking df (sp0 :: rest)).bind fun tr =>
      (calculate_distance_ranking T df (some current) (sp0 :: rest)).bind
        fun dr =>
      (omapM (fun sp => do
        let a ← List.lookup sp tr
        let b ← List.lookup sp dr
        pure ((sp, a + b) : String × ℕ)) (sp0 :: rest)).bind fun scores =>
      (pyMin scores).bind fun best =>
      (optimizeLoopAux T df fuel ((sp0 :: rest).erase best.1) best.1
        (route ++ [best.1])).bind fun rk =>
      some (rk.1, rk.2 + 1) := rfl

theorem optimizeLoopAux_spec (T : TrigOps) (df : List Spot) :
    ∀ (fuel : ℕ) (remaining : List String) (current : String)
      (route : List String),
      remaining.length = fuel →
      (∀ sp ∈ remaining, (findSpot df sp).isSome) →
      (findSpot df current).isSome →
      ∃ ext, optimizeLoopAux T df fuel remaining current route =
          some (route ++ ext, fuel) ∧ ext.Perm remaining := by
  intro fuel
  induction fuel with
  | zero =>
    intro remaining current route hlen _ _
    have hnil : remaining = [] := List.length_eq_zero.mp hlen
    subst hnil
    exact ⟨[], by simp [optimizeLoopAux], List.Perm.refl []⟩
  | succ fuel ih =>
    intro remaining current route hlen hfound hcur
    cases remaining with
    | nil => simp at hlen
    | cons sp0 rest =>
      rcases time_ranking_some df (sp0 :: rest) hfound with
        ⟨effs, heffs, hekeys, htr⟩
      rcases dist_ranking_some T df current (sp0 :: rest) hcur hfound with
        ⟨curd, dists, hcurd, hdists, hdkeys, hdr⟩
      have htrkeys := ranked_desc_keys_perm effs (sp0 :: rest) hekeys
      have hdrkeys := ranked_asc_keys_perm dists (sp0 :: rest) hdkeys
      rcases scores_some (rankify 1 (sortDescBySnd effs))
          (rankify 1 (sortAscBySnd dists)) (sp0 :: rest)
          (fun sp hsp => htrkeys.mem_iff.mpr hsp)
          (fun sp hsp => hdrkeys.mem_iff.mpr hsp) with
        ⟨scored, hscored, hskeys⟩
      have hne : ∃ q qs, scored = q :: qs := by
        cases scored with
        | nil => simp at hskeys
        | cons q qs => exact ⟨q, qs, rfl⟩
      rcases hne with ⟨q, qs, rfl⟩
      rcases pyMin_isSome q qs with ⟨best, hbest⟩
      have hbmem : best ∈ q :: qs := pyMin_mem hbest
      have hbfst : best.1 ∈ sp0 :: rest := by
        rw [← hskeys]
        exact List.mem_map_of_mem Prod.fst hbmem
      have hlen' : ((sp0 :: rest).erase best.1).length = fuel := by
        rw [List.length_erase_of_mem hbfst, hlen]
        omega
      have hfound' : ∀ sp ∈ (sp0 :: rest).erase best.1,
          (findSpot df sp).isSome :=
        fun sp hsp => hfound sp (List.mem_of_mem_erase hsp)
      have hcur' : (findSpot df best.1).isSome := hfound best.1 hbfst
      rcases ih ((sp0 :: rest).erase best.1) best.1 (route ++ [best.1])
        hlen' hfound' hcur' with ⟨ext, hrec, hperm⟩
      refine ⟨best.1 :: ext, ?_, ?_⟩
      · rw [optimizeLoopAux_cons, htr, Option.some_bind, hdr, Option.some_bind,
          hscored, Option.some_bind, hbest, Option.some_bind, hrec,
          Option.some_bind]
        simp
      · exact (hperm.cons best.1).trans (List.perm_cons_erase hbfst).symm

theorem optimizeRouteAux_short (T : TrigOps) (df : List Spot)
    (selected : List String) (loc : Option (ℚ × ℚ))
    (h1 : selected.length ≤ 1) :
    optimizeRouteAux T df selected loc = some (selected, 0) := by
  unfold optimizeRouteAux
  rw [if_pos h1]

theorem optimizeRouteAux_loc (T : TrigOps) (df : List Spot)
    (selected : List String) (lat lon : ℚ) (h2 : ¬selected.length ≤ 1) :
    optimizeRouteAux T df selected (some (lat, lon)) =
      (calculate_distance_ranking_from_location T df lat lon selected).bind
        fun dr =>
      (calculate_time_decrease_rate_ranking df selected).bind fun tr =>
      (omapM (fun sp => do
        let a ← List.lookup sp dr
        let b ← List.lookup sp tr
        pure ((sp, a + b) : String × ℕ)) selected).bind fun scores =>
      (pyMin scores).bind fun best =>
      (optimizeLoopAux T df (selected.erase best.1).length
        (selected.erase best.1) best.1 [best.1]).bind fun rk =>
      some (rk.1, rk.2 + 1) := by
  unfold optimizeRouteAux
  rw [if_neg h2]
  rfl

theorem optimizeRouteAux_none (T : TrigOps) (df : List Spot)
    (selected : List String) (h2 : ¬selected.length ≤ 1) :
    optimizeRouteAux T df selected none =
      (omapM (fun sp => do
        let d ← findSpot df sp
        pure ((sp, d.score) : String × ℚ)) selected).bind fun keyed =>
      (pyMax keyed).bind fun best =>
      (optimizeLoopAux T df (selected.erase best.1).length
        (selected.erase best.1) best.1 [best.1]).bind fun rk =>
      some (rk.1, rk.2 + 1) := by
  unfold optimizeRouteAux
  rw [if_neg h2]
  rfl

theorem keyed_scores_some (df : List Spot) (selected : List String)
    (hfound : ∀ sp ∈ selected, (findSpot df sp).isSome) :
    ∃ keyed, omapM (fun sp => do
        let d ← findSpot df sp
        pure ((sp, d.score) : String × ℚ)) selected = some keyed ∧
      keyed.map Prod.fst = selected := by
  have hs : ∀ sp ∈ selected, ((fun sp => do
      let d ← findSpot df sp
      pure ((sp, d.score) : String × ℚ)) sp).isSome := by
    intro sp hsp
    rcases Option.isSome_iff_exists.mp (hfound sp hsp) with ⟨d, hd⟩
    simp [hd]
  rcases omapM_isSome _ hs with ⟨keyed, hkeyed⟩
  have hf : ∀ a p, (do
      let d ← findSpot df a
      pure ((a, d.score) : String × ℚ)) = some p → p.1 = a := by
    intro a p hp
    rcases hfa : findSpot df a with _ | d
    · simp [hfa] at hp
    · simp [hfa] at hp
      rw [← hp]
  exact ⟨keyed, hkeyed, omapM_keys _ hf hkeyed⟩

theorem optimizeRouteAux_spec (T : TrigOps) (df : List Spot)
    (selected : List String) (loc : Option (ℚ × ℚ))
    (hfound : ∀ sp ∈ selected, (findSpot df sp).isSome) :
    ∃ r k, optimizeRouteAux T df selected loc = some (r, k) ∧
      r.Perm selected ∧ r.length = selected.length ∧
      (selected.length ≤ 1 → k = 0 ∧ r = selected) ∧
      (2 ≤ selected.length → k = selected.length) := by
  by_cases h1 : selected.length ≤ 1
  · exact ⟨selected, 0, optimizeRouteAux_short T df selected loc h1,
      List.Perm.refl selected, rfl, fun _ => ⟨rfl, rfl⟩,
      fun h2 => absurd h1 (by omega)⟩
  · have hlen2 : 2 ≤ selected.length := by omega
    have hchoice : ∀ b : String, b ∈ selected →
        ∃ r k, ((optimizeLoopAux T df (selected.erase b).length
            (selected.erase b) b [b]).bind fun rk =>
            some (rk.1, rk.2 + 1)) = some (r, k) ∧
          r.Perm selected ∧ r.length = selected.length ∧
          k = selected.length := by
      intro b hbfst
      have hfound' : ∀ sp ∈ selected.erase b, (findSpot df sp).isSome :=
        fun sp hsp => hfound sp (List.mem_of_mem_erase hsp)
      have hcur' : (findSpot df b).isSome := hfound b hbfst
      rcases optimizeLoopAux_spec T df (selected.erase b).length
        (selected.erase b) b [b] rfl hfound' hcur' with
        ⟨ext, hrec, hperm⟩
      have hperm2 : (b :: ext).Perm selected :=
        (hperm.cons b).trans (List.perm_cons_erase hbfst).symm
      refine ⟨b :: ext, (selected.erase b).length + 1, ?_, hperm2,
        hperm2.length_eq, ?_⟩
      · rw [hrec, Option.some_bind]
        simp
      · rw [List.length_erase_of_mem hbfst]
        omega
    match loc with
    | some (lat, lon) =>
      rcases dist_ranking_from_loc_some T df lat lon selected hfound with
        ⟨dists, hdists, hdkeys, hdr⟩
      rcases time_ranking_some df selected hfound with
        ⟨effs, heffs, hekeys, htr⟩
      have hdrkeys := ranked_asc_keys_perm dists selected hdkeys
      have htrkeys := ranked_desc_keys_perm effs selected hekeys
      rcases scores_some (rankify 1 (sortAscBySnd dists))
          (rankify 1 (sortDescBySnd effs)) selected
          (fun sp hsp => hdrkeys.mem_iff.mpr hsp)
          (fun sp hsp => htrkeys.mem_iff.mpr hsp) with
        ⟨scored, hscored, hskeys⟩
      have hne : ∃ q qs, scored = q :: qs := by
        cases selected with
        | nil => simp at hlen2
        | cons s0 stail =>
          cases scored with
          | nil => simp at hskeys
          | cons q qs => exact ⟨q, qs, rfl⟩
      rcases hne with ⟨q, qs, rfl⟩
      rcases pyMin_isSome q qs with ⟨best, hbest⟩
      have hbfst : best.1 ∈ selected := by
        rw [← hskeys]
        exact List.mem_map_of_mem Prod.fst (pyMin_mem hbest)
      rcases hchoice best.1 hbfst with ⟨r, k, hres, hperm, hlen, hk⟩
      refine ⟨r, k, ?_, hperm, hlen, fun h => absurd h (by omega), fun _ => hk⟩
      rw [optimizeRouteAux_loc T df selected lat lon h1, hdr, Option.some_bind,
        htr, Option.some_bind, hscored, Option.some_bind, hbest,
        Option.some_bind, hres]
    | none =>
      rcases keyed_scores_some df selected hfound with ⟨keyed, hkeyed, hkkeys⟩
      have hne : ∃ q qs, keyed = q :: qs := by
        cases selected with
        | nil => simp at hlen2
        | cons s0 stail =>
          cases keyed with
          | nil => simp at hkkeys
          | cons q qs => exact ⟨q, qs, rfl⟩
      rcases hne with ⟨q, qs, rfl⟩
      rcases pyMax_isSome q qs with ⟨best, hbest⟩
      have hbfst : best.1 ∈ selected := by
        rw [← hkkeys]
        exact List.mem_map_of_mem Prod.fst (pyMax_mem hbest)
      rcases hchoice best.1 hbfst with ⟨r, k, hres, hperm, hlen, hk⟩
      refine ⟨r, k, ?_, hperm, hlen, fun h => absurd h (by omega), fun _ => hk⟩
      rw [optimizeRouteAux_none T df selected h1, hkeyed, Option.some_bind,
        hbest, Option.some_bind, hres]

end RouteOpt

namespace RouteOpt

/-- C1 (amended): for every catalog containing every candidate identifier,
every list of distinct candidate identifiers and any optional start
location, `optimize_route` succeeds and returns a permutation of the input
list — the same identifiers, each exactly once, with the same length; it is
produced in exactly `N` selection steps when the list has `N ≥ 2` members,
while for `N ≤ 1` the input is returned unchanged with `0` selection steps
(the `len(selected_spots) <= 1` shortcut). -/
theorem optimize_route_perm_steps (T : TrigOps) (df : List Spot)
    (selected : List String) (loc : Option (ℚ × ℚ))
    (hnd : selected.Nodup)
    (hfound : ∀ sp ∈ selected, (findSpot df sp).isSome) :
    ∃ r k, optimizeRouteAux T df selected loc = some (r, k) ∧
      optimize_route T df selected loc = some r ∧
      r.Perm selected ∧ r.length = selected.length ∧
      (2 ≤ selected.length → k = selected.length) ∧
      (selected.length ≤ 1 → k = 0 ∧ r = selected) := by
  rcases optimizeRouteAux_spec T df selected loc hfound with
    ⟨r, k, haux, hperm, hlen, hshort, hk⟩
  exact ⟨r, k, haux, by rw [optimize_route, haux]; rfl, hperm, hlen, hk,
    hshort⟩

/-- Witness for C1 at a concrete catalog and candidate list. -/
theorem optimize_route_perm_steps_witness :
    (["A", "B"] : List String).Nodup ∧
    (∀ sp ∈ (["A", "B"] : List String), (findSpot demoDf sp).isSome) ∧
    (∃ r k, optimizeRouteAux idTrig demoDf ["A", "B"] none = some (r, k) ∧
      optimize_route idTrig demoDf ["A", "B"] none = some r ∧
      r.Perm ["A", "B"] ∧ r.length = (["A", "B"] : List String).length ∧
      (2 ≤ (["A", "B"] : List String).length →
        k = (["A", "B"] : List String).length) ∧
      ((["A", "B"] : List String).length ≤ 1 → k = 0 ∧ r = ["A", "B"])) :=
  ⟨by decide, by decide,
    optimize_route_perm_steps idTrig demoDf ["A", "B"] none (by decide)
      (by decide)⟩

/-- C1 counterexample: for the one-element candidate list the code takes the
`len(selected_spots) <= 1` shortcut and performs `0` selection steps, not
`N = 1` as the claim's "exactly N selection steps for N candidates"
requires. -/
theorem optimize_route_steps_counterexample :
    optimizeRouteAux idTrig demoDf ["A"] none = some (["A"], 0) ∧
    optimizeRouteAux idTrig demoDf ["A"] none ≠ some (["A"], 1) := by
  constructor
  · rfl
  · decide

/-- C7: `optimize_route` on the empty list returns the empty list and on a
one-element list returns it unchanged, for every start location and every
catalog — in particular for catalogs that do not contain the identifier at
all, since the shortcut performs no catalog lookup. -/
theorem optimize_route_small (T : TrigOps) (df : List Spot)
    (loc : Option (ℚ × ℚ)) (x : String) :
    optimize_route T df [] loc = some [] ∧
    optimize_route T df [x] loc = some [x] := by
  constructor
  · rw [optimize_route, optimizeRouteAux_short T df [] loc (by simp)]
    rfl
  · rw [optimize_route, optimizeRouteAux_short T df [x] loc (by simp)]
    rfl

end RouteOpt

namespace RouteOpt

theorem stapp_find_eq : StApp.findSpot = findSpot := rfl

theorem stapp_time_eq :
    StApp.calculate_time_decrease_rate_ranking =
      calculate_time_decrease_rate_ranking := rfl

theorem stapp_distrank_eq :
    StApp.calculate_distance_ranking = calculate_distance_ranking := rfl

theorem stapp_locrank_eq :
    StApp.calculate_distance_ranking_from_location =
      calculate_distance_ranking_from_location := rfl

theorem stapp_loop_cons (T : TrigOps) (df : List Spot) (fuel : ℕ)
    (sp0 : String) (rest : List String) (current : String)
    (route : List String) :
    StApp.optimizeLoop T df (fuel + 1) (sp0 :: rest) current route =
      (StApp.calculate_time_decrease_rate_ranking df (sp0 :: rest)).bind
        fun tr =>
      (StApp.calculate_distance_ranking T df (some current)
        (sp0 :: rest)).bind fun dr =>
      (omapM (fun sp => do
        let a ← List.lookup sp tr
        let b ← List.lookup sp dr
        pure ((sp, a + b) : String × ℕ)) (sp0 :: rest)).bind fun scores =>
      (pyMin scores).bind fun best =>
      StApp.optimizeLoop T df fuel ((sp0 :: rest).erase best.1) best.1
        (route ++ [best.1]) := rfl

theorem stapp_loop_eq (T : TrigOps) (df : List Spot) :
    ∀ (fuel : ℕ) (remaining : List String) (current : String)
      (route : List String),
      StApp.optimizeLoop T df fuel remaining current route =
        (optimizeLoopAux T df fuel remaining current route).map Prod.fst := by
  intro fuel
  induction fuel with
  | zero => intro remaining current route; rfl
  | succ fuel ih =>
    intro remaining current route
    cases remaining with
    | nil => rfl
    | cons sp0 rest =>
      rw [stapp_loop_cons, optimizeLoopAux_cons, stapp_time_eq,
        stapp_distrank_eq]
      cases calculate_time_decrease_rate_ranking df (sp0 :: rest) with
      | none => rfl
      | some tr =>
        simp only [Option.some_bind]
        cases calculate_distance_ranking T df (some current) (sp0 :: rest) with
        | none => rfl
        | some dr =>
          simp only [Option.some_bind]
          cases omapM (fun sp => do
              let a ← List.lookup sp tr
              let b ← List.lookup sp dr
              pure ((sp, a + b) : String × ℕ)) (sp0 :: rest) with
          | none => rfl
          | some scores =>
            simp only [Option.some_bind]
            cases pyMin scores with
            | none => rfl
            | some best =>
              simp only [Option.some_bind]
              rw [ih]
              cases optimizeLoopAux T df fuel ((sp0 :: rest).erase best.1)
                  best.1 (route ++ [best.1]) with
              | none => rfl
              | some rk => rfl

theorem stapp_route_loc_eq (T : TrigOps) (df : List Spot)
    (selected : List String) (lat lon : ℚ) (h2 : ¬selected.length ≤ 1) :
    StApp.optimize_route T df selected (some (lat, lon)) =
      (StApp.calculate_distance_ranking_from_location T df lat lon
        selected).bind fun dr =>
      (StApp.calculate_time_decrease_rate_ranking df selected).bind fun tr =>
      (omapM (fun sp => do
        let a ← List.lookup sp dr
        let b ← List.lookup sp tr
        pure ((sp, a + b) : String × ℕ)) selected).bind fun scores =>
      (pyMin scores).bind fun best =>
      StApp.optimizeLoop T df (selected.erase best.1).length
        (selected.erase best.1) best.1 [best.1] := by
  unfold StApp.optimize_route
  rw [if_neg h2]
  rfl

theorem stapp_route_none_eq (T : TrigOps) (df : List Spot)
    (selected : List String) (h2 : ¬selected.length ≤ 1) :
    StApp.optimize_route T df selected none =
      (omapM (fun sp => do
        let d ← StApp.findSpot df sp
        pure ((sp, d.score) : String × ℚ)) selected).bind fun keyed =>
      (pyMax keyed).bind fun best =>
      StApp.optimizeLoop T df (selected.erase best.1).length
        (selected.erase best.1) best.1 [best.1] := by
  unfold StApp.optimize_route
  rw [if_neg h2]
  rfl

theorem stapp_route_eq (T : TrigOps) (df : List Spot) (selected : List String)
    (loc : Option (ℚ × ℚ)) :
    StApp.optimize_route T df selected loc =
      optimize_route T df selected loc := by
  by_cases h1 : selected.length ≤ 1
  · rw [optimize_route, optimizeRouteAux_short T df selected loc h1]
    unfold StApp.optimize_route
    rw [if_pos h1]
    rfl
  · match loc with
    | some (lat, lon) =>
      rw [stapp_route_loc_eq T df selected lat lon h1, optimize_route,
        optimizeRouteAux_loc T df selected lat lon h1, stapp_locrank_eq,
        stapp_time_eq]
      cases calculate_distance_ranking_from_location T df lat lon selected with
      | none => rfl
      | some dr =>
        simp only [Option.some_bind]
        cases calculate_time_decrease_rate_ranking df selected with
        | none => rfl
        | some tr =>
          simp only [Option.some_bind]
          cases omapM (fun sp => do
              let a ← List.lookup sp dr
              let b ← List.lookup sp tr
              pure ((sp, a + b) : String × ℕ)) selected with
          | none => rfl
          | some scores =>
            simp only [Option.some_bind]
            cases pyMin scores with
            | none => rfl
            | some best =>
              simp only [Option.some_bind]
              rw [stapp_loop_eq]
              cases optimizeLoopAux T df (selected.erase best.1).length
                  (selected.erase best.1) best.1 [best.1] with
              | none => rfl
              | some rk => rfl
    | none =>
      rw [stapp_route_none_eq T df selected h1, optimize_route,
        optimizeRouteAux_none T df selected h1, stapp_find_eq]
      cases omapM (fun sp => do
          let d ← findSpot df sp
          pure ((sp, d.score) : String × ℚ)) selected with
      | none => rfl
      | some keyed =>
        simp only [Option.some_bind]
        cases pyMax keyed with
        | none => rfl
        | some best =>
          simp only [Option.some_bind]
          rw [stapp_loop_eq]
          cases optimizeLoopAux T df (selected.erase best.1).length
              (selected.erase best.1) best.1 [best.1] with
          | none => rfl
          | some rk => rfl

/-- C2: the optimizer duplicated across `src/route_optimizer.py` and
`src/streamlit_app.py` is functionally equivalent — `calculate_distance`
returns the identical distance for every coordinate pair and
`optimize_route` returns the identical route for every catalog, candidate
list and optional start location. -/
theorem duplicated_optimizers_equivalent :
    (∀ (T : TrigOps) (lat1 lon1 lat2 lon2 : ℚ),
      StApp.calculate_distance T lat1 lon1 lat2 lon2 =
        calculate_distance T lat1 lon1 lat2 lon2) ∧
    (∀ (T : TrigOps) (df : List Spot) (selected : List String)
      (loc : Option (ℚ × ℚ)),
      StApp.optimize_route T df selected loc =
        optimize_route T df selected loc) :=
  ⟨fun _ _ _ _ _ => rfl, fun T df selected loc => stapp_route_eq T df selected loc⟩

end RouteOpt

namespace RouteOpt

/-- C5: `calculate_distance` coincides with the spec's Hubeny/WGS84
reference definition (radians conversion, mean latitude, Δy/Δx,
`a = 6378137.0`, `b = 6356752.314245`, `e2 = (a² − b²)/a²`,
`M = a(1−e2)/(1−e2 sin²P)^1.5`, `N = a/sqrt(1−e2 sin²P)`, and
`sqrt((Δy·M)² + (Δx·N·cos P)²)/1000`), for all inputs and every
interpretation of the transcendental operations. -/
theorem calculate_distance_eq_hubeny_spec (T : TrigOps)
    (lat1 lon1 lat2 lon2 : ℚ) :
    calculate_distance T lat1 lon1 lat2 lon2 =
      hubenySpecFormula T lat1 lon1 lat2 lon2 := rfl

/-- C6: `calculate_distance` is exactly symmetric in its two coordinate
pairs, and — provided the square-root operation sends `0` to `0`, as the
real `math.sqrt` does — the distance from a point to itself is `0`. -/
theorem calculate_distance_symm_and_zero (T : TrigOps) :
    (∀ lat1 lon1 lat2 lon2 : ℚ,
      calculate_distance T lat1 lon1 lat2 lon2 =
        calculate_distance T lat2 lon2 lat1 lon1) ∧
    (T.sqrt 0 = 0 →
      ∀ lat lon : ℚ, calculate_distance T lat lon lat lon = 0) := by
  constructor
  · intro lat1 lon1 lat2 lon2
    simp only [calculate_distance]
    rw [show (T.radians lat2 + T.radians lat1) / 2 =
        (T.radians lat1 + T.radians lat2) / 2 by ring]
    congr 1
    congr 1
    ring
  · intro hsq lat lon
    simp [calculate_distance, hsq]

/-- Witness for C6: at the identity interpretation the square root of `0`
is `0`, and the self-distance at a concrete coordinate evaluates to `0`. -/
theorem calculate_distance_symm_zero_witness :
    idTrig.sqrt 0 = 0 ∧ calculate_distance idTrig 1 2 1 2 = 0 :=
  ⟨rfl, (calculate_distance_symm_and_zero idTrig).2 rfl 1 2⟩

end RouteOpt

namespace RouteOpt

theorem time_ranking_none (df : List Spot) (spots : List String) (sp : String)
    (hsp : sp ∈ spots) (hmiss : findSpot df sp = none) :
    calculate_time_decrease_rate_ranking df spots = none := by
  unfold calculate_time_decrease_rate_ranking
  rw [Option.bind_eq_bind', omapM_none_of_mem _ hsp (by simp [hmiss])]
  rfl

theorem dist_ranking_none_current (T : TrigOps) (df : List Spot)
    (cur : String) (remaining : List String)
    (hmiss : findSpot df cur = none) :
    calculate_distance_ranking T df (some cur) remaining = none := by
  unfold calculate_distance_ranking
  dsimp only
  rw [Option.bind_eq_bind', hmiss]
  rfl

theorem dist_ranking_none_candidate (T : TrigOps) (df : List Spot)
    (cur : String) (remaining : List String) (sp : String)
    (hsp : sp ∈ remaining) (hmiss : findSpot df sp = none) :
    calculate_distance_ranking T df (some cur) remaining = none := by
  unfold calculate_distance_ranking
  dsimp only
  cases hcur : findSpot df cur with
  | none => rfl
  | some curd =>
    rw [Option.bind_eq_bind', Option.some_bind, Option.bind_eq_bind',
      omapM_none_of_mem _ hsp (by simp [hmiss])]
    rfl

theorem loc_ranking_none (T : TrigOps) (df : List Spot) (lat lon : ℚ)
    (remaining : List String) (sp : String) (hsp : sp ∈ remaining)
    (hmiss : findSpot df sp = none) :
    calculate_distance_ranking_from_location T df lat lon remaining = none := by
  unfold calculate_distance_ranking_from_location
  rw [Option.bind_eq_bind', omapM_none_of_mem _ hsp (by simp [hmiss])]
  rfl

theorem optimize_route_none_of_missing (T : TrigOps) (df : List Spot)
    (selected : List String) (loc : Option (ℚ × ℚ)) (sp : String)
    (h2 : 2 ≤ selected.length) (hsp : sp ∈ selected)
    (hmiss : findSpot df sp = none) :
    optimize_route T df selected loc = none := by
  have h1 : ¬selected.length ≤ 1 := by omega
  match loc with
  | some (lat, lon) =>
    rw [optimize_route, optimizeRouteAux_loc T df selected lat lon h1,
      loc_ranking_none T df lat lon selected sp hsp hmiss]
    rfl
  | none =>
    rw [optimize_route, optimizeRouteAux_none T df selected h1,
      omapM_none_of_mem _ hsp (by simp [hmiss])]
    rfl

theorem statsFold_one (T : TrigOps) (df : List Spot) (a : String) :
    statsFold T df [a] =
      (findSpot df a).bind fun d => some (d.minTime, 0, d.score) := rfl

theorem statsFold_cons2 (T : TrigOps) (df : List Spot) (a b : String)
    (rest' : List String) :
    statsFold T df (a :: b :: rest') =
      (findSpot df a).bind fun d =>
      (findSpot df b).bind fun nd =>
      (statsFold T df (b :: rest')).bind fun tds =>
      some (d.minTime + tds.1,
        calculate_distance T d.lat d.lon nd.lat nd.lon + tds.2.1,
        d.score + tds.2.2) := rfl

theorem statsFold_missing (T : TrigOps) (df : List Spot) :
    ∀ (route : List String) (sp : String), sp ∈ route →
      findSpot df sp = none → statsFold T df route = none := by
  intro route
  induction route with
  | nil => intro sp hsp; exact absurd hsp (List.not_mem_nil sp)
  | cons a rest ih =>
    intro sp hsp hmiss
    rcases List.mem_cons.mp hsp with h | h
    · subst h
      cases rest with
      | nil => simp [statsFold, hmiss]
      | cons b rest' => simp [statsFold, hmiss]
    · have hrestne : ∃ b rest', rest = b :: rest' := by
        cases rest with
        | nil => exact absurd h (List.not_mem_nil sp)
        | cons b rest' => exact ⟨b, rest', rfl⟩
      rcases hrestne with ⟨b, rest', rfl⟩
      have hrec := ih sp h hmiss
      cases ha : findSpot df a with
      | none => simp [statsFold, ha]
      | some d =>
        cases hb : findSpot df b with
        | none => simp [statsFold, ha, hb]
        | some nd =>
          rw [statsFold_cons2, ha, Option.some_bind, hb, Option.some_bind,
            hrec]
          rfl

theorem route_stats_missing (T : TrigOps) (df : List Spot)
    (route : List String) (sp : String) (hsp : sp ∈ route)
    (hmiss : findSpot df sp = none) :
    calculate_route_stats T df route = none := by
  cases route with
  | nil => exact absurd hsp (List.not_mem_nil sp)
  | cons a rest =>
    unfold calculate_route_stats
    rw [Option.bind_eq_bind', statsFold_missing T df (a :: rest) sp hsp hmiss]
    rfl

/-- C8 (amended): a candidate identifier absent from the catalog makes the
time-efficiency ranking fail; it makes the proximity ranking fail whenever a
reference is supplied (with no reference the flat all-rank-1 mapping is
returned without consulting the catalog), and an absent supplied reference
makes the proximity ranking fail as well; `optimize_route` fails for
candidate sets of at least two members, and `route_statistics` fails for any
route containing the absent identifier.  `none` models the raised
`NotFound`; no missing point is silently skipped. -/
theorem notfound_propagation :
    (∀ (df : List Spot) (spots : List String) (sp : String), sp ∈ spots →
      findSpot df sp = none →
      calculate_time_decrease_rate_ranking df spots = none) ∧
    (∀ (T : TrigOps) (df : List Spot) (cur : String)
      (remaining : List String) (sp : String), sp ∈ remaining →
      findSpot df sp = none →
      calculate_distance_ranking T df (some cur) remaining = none) ∧
    (∀ (T : TrigOps) (df : List Spot) (cur : String)
      (remaining : List String), findSpot df cur = none →
      calculate_distance_ranking T df (some cur) remaining = none) ∧
    (∀ (T : TrigOps) (df : List Spot) (lat lon : ℚ)
      (remaining : List String) (sp : String), sp ∈ remaining →
      findSpot df sp = none →
      calculate_distance_ranking_from_location T df lat lon remaining =
        none) ∧
    (∀ (T : TrigOps) (df : List Spot) (selected : List String)
      (loc : Option (ℚ × ℚ)) (sp : String), 2 ≤ selected.length →
      sp ∈ selected → findSpot df sp = none →
      optimize_route T df selected loc = none) ∧
    (∀ (T : TrigOps) (df : List Spot) (route : List String) (sp : String),
      sp ∈ route → findSpot df sp = none →
      calculate_route_stats T df route = none) :=
  ⟨time_ranking_none,
   fun T df cur remaining sp h1 h2 =>
     dist_ranking_none_candidate T df cur remaining sp h1 h2,
   dist_ranking_none_current,
   loc_ranking_none,
   fun T df selected loc sp h1 h2 h3 =>
     optimize_route_none_of_missing T df selected loc sp h1 h2 h3,
   route_stats_missing⟩

/-- Witness for C8 at concrete inputs: "X" is absent from the demo catalog,
and each operation fails on it. -/
theorem notfound_propagation_witness :
    ("X" ∈ (["X"] : List String) ∧ findSpot demoDf "X" = none ∧
      (2 : ℕ) ≤ (["A", "X"] : List String).length) ∧
    calculate_time_decrease_rate_ranking demoDf ["X"] = none ∧
    calculate_distance_ranking idTrig demoDf (some "A") ["X"] = none ∧
    optimize_route idTrig demoDf ["A", "X"] none = none ∧
    calculate_route_stats idTrig demoDf ["X"] = none :=
  ⟨⟨by decide, by decide, by decide⟩,
   notfound_propagation.1 demoDf ["X"] "X" (by decide) (by decide),
   notfound_propagation.2.1 idTrig demoDf "A" ["X"] "X" (by decide)
     (by decide),
   notfound_propagation.2.2.2.2.1 idTrig demoDf ["A", "X"] none "X"
     (by decide) (by decide) (by decide),
   notfound_propagation.2.2.2.2.2 idTrig demoDf ["X"] "X" (by decide)
     (by decide)⟩

/-- C8 counterexample: with no reference point, `calculate_distance_ranking`
returns the flat all-rank-1 mapping without any catalog lookup, so an
absent candidate does not make it fail; likewise the one-candidate shortcut
of `optimize_route` succeeds although its candidate is absent.  This refutes
the claim's unrestricted "whenever a candidate identifier is absent, the
ranking operations — and optimize_route … — fail with NotFound". -/
theorem notfound_counterexample :
    (findSpot demoDf "X" = none ∧
      calculate_distance_ranking idTrig demoDf none ["X"] =
        some [("X", 1)]) ∧
    optimize_route idTrig demoDf ["X"] none = some ["X"] := by
  refine ⟨⟨by decide, rfl⟩, rfl⟩

end RouteOpt

namespace RouteOpt

theorem omapM_cons_some {α β : Type} (f : α → Option β) (a : α) (l : List α)
    (bs : List β) (h : omapM f (a :: l) = some bs) :
    ∃ b bs', f a = some b ∧ omapM f l = some bs' ∧ bs = b :: bs' := by
  rw [omapM_cons] at h
  cases hfa : f a with
  | none => rw [hfa] at h; simp at h
  | some b =>
    rw [hfa, Option.some_bind] at h
    cases hfl : omapM f l with
    | none => rw [hfl] at h; simp at h
    | some bs' =>
      rw [hfl, Option.some_bind] at h
      exact ⟨b, bs', rfl, rfl, (Option.some_inj.mp h).symm⟩

theorem omapM_mem_exists {α β : Type} (f : α → Option β) :
    ∀ {l : List α} {bs : List β}, omapM f l = some bs →
      ∀ b ∈ bs, ∃ a ∈ l, f a = some b := by
  intro l
  induction l with
  | nil =>
    intro bs h b hb
    simp [omapM] at h
    subst h
    exact absurd hb (List.not_mem_nil b)
  | cons x xs ih =>
    intro bs h b hb
    rcases omapM_cons_some f x xs bs h with ⟨b0, bs', hb0, hbs', rfl⟩
    rcases List.mem_cons.mp hb with h' | h'
    · exact ⟨x, List.mem_cons_self x xs, h' ▸ hb0⟩
    · rcases ih hbs' b h' with ⟨a, ha, hfa⟩
      exact ⟨a, List.mem_cons_of_mem x ha, hfa⟩

theorem statsFold_closed (T : TrigOps) (df : List Spot) :
    ∀ (route : List String) (ds : List Spot),
      omapM (findSpot df) route = some ds →
      statsFold T df route =
        some ((ds.map Spot.minTime).sum, legsSum T ds,
          (ds.map Spot.score).sum) := by
  intro route
  induction route with
  | nil =>
    intro ds h
    simp [omapM] at h
    subst h
    simp [statsFold, legsSum]
  | cons a rest ih =>
    intro ds h
    rcases omapM_cons_some _ a rest ds h with ⟨d, ds', hd, hds', rfl⟩
    cases rest with
    | nil =>
      simp [omapM] at hds'
      subst hds'
      rw [statsFold_one, hd, Option.some_bind]
      simp [legsSum]
    | cons b rest' =>
      rcases omapM_cons_some _ b rest' ds' hds' with ⟨nd, ds'', hnd, _, rfl⟩
      rw [statsFold_cons2, hd, Option.some_bind, hnd, Option.some_bind,
        ih (nd :: ds'') hds', Option.some_bind]
      simp only [List.map_cons, List.sum_cons, legsSum]

theorem route_stats_cons (T : TrigOps) (df : List Spot) (a : String)
    (rest : List String) :
    calculate_route_stats T df (a :: rest) =
      (statsFold T df (a :: rest)).bind fun tds =>
      some (StatsResult.stats
        { total_spots := (a :: rest).length
          total_time_minutes := tds.1
          total_distance_km := pyRound tds.2.1 2
          average_recommend_score :=
            pyRound (tds.2.2 / ((a :: rest).length : ℚ)) 1
          efficiency_score := pyRound (tds.2.2 / (tds.1 / 60)) 2 }) := rfl

end RouteOpt

namespace RouteOpt

/-- C9: `calculate_route_stats` returns the empty result (not an error) on
the empty route; on a non-empty route whose stops all resolve in the catalog
it returns total_spots = route length, total_time_minutes = sum of the
minimum durations, total_distance_km = the sum of the `N−1` consecutive-leg
distances rounded to 2 decimals, average_recommend_score = mean
recommendation score rounded to 1 decimal, and efficiency_score = total
recommendation divided by (total time / 60) rounded to 2 decimals; in
particular a 1-stop route yields total_distance_km = 0 and total_spots = 1. -/
theorem route_stats_spec :
    (∀ (T : TrigOps) (df : List Spot),
      calculate_route_stats T df [] = some StatsResult.empty) ∧
    (∀ (T : TrigOps) (df : List Spot) (route : List String) (ds : List Spot),
      route ≠ [] → omapM (findSpot df) route = some ds →
      calculate_route_stats T df route = some (StatsResult.stats
        { total_spots := route.length
          total_time_minutes := (ds.map Spot.minTime).sum
          total_distance_km := pyRound (legsSum T ds) 2
          average_recommend_score :=
            pyRound ((ds.map Spot.score).sum / (route.length : ℚ)) 1
          efficiency_score := pyRound ((ds.map Spot.score).sum /
            ((ds.map Spot.minTime).sum / 60)) 2 })) ∧
    (∀ (T : TrigOps) (df : List Spot) (sp : String) (d : Spot),
      findSpot df sp = some d →
      ∃ st, calculate_route_stats T df [sp] = some (StatsResult.stats st) ∧
        st.total_distance_km = 0 ∧ st.total_spots = 1) := by
  have hmain : ∀ (T : TrigOps) (df : List Spot) (route : List String)
      (ds : List Spot), route ≠ [] → omapM (findSpot df) route = some ds →
      calculate_route_stats T df route = some (StatsResult.stats
        { total_spots := route.length
          total_time_minutes := (ds.map Spot.minTime).sum
          total_distance_km := pyRound (legsSum T ds) 2
          average_recommend_score :=
            pyRound ((ds.map Spot.score).sum / (route.length : ℚ)) 1
          efficiency_score := pyRound ((ds.map Spot.score).sum /
            ((ds.map Spot.minTime).sum / 60)) 2 }) := by
    intro T df route ds hne hds
    cases route with
    | nil => exact absurd rfl hne
    | cons a rest =>
      rw [route_stats_cons, statsFold_closed T df (a :: rest) ds hds,
        Option.some_bind]
  refine ⟨fun T df => rfl, hmain, ?_⟩
  intro T df sp d hd
  have hds : omapM (findSpot df) [sp] = some [d] := by
    simp [omapM_cons, omapM, hd]
  refine ⟨_, hmain T df [sp] [d] (by simp) hds, ?_, rfl⟩
  show pyRound (legsSum T [d]) 2 = 0
  have h0 : legsSum T [d] = 0 := rfl
  rw [h0]
  norm_num [pyRound, roundHalfEven]

/-- Witness for C9 on the demo catalog: a two-stop route and a one-stop
route with all hypotheses discharged by computation. -/
theorem route_stats_spec_witness :
    ((["A", "B"] : List String) ≠ [] ∧
      omapM (findSpot demoDf) ["A", "B"] =
        some [⟨"A", 33, 130, 60, 5⟩, ⟨"B", 34, 131, 30, 3⟩] ∧
      findSpot demoDf "A" = some ⟨"A", 33, 130, 60, 5⟩) ∧
    calculate_route_stats idTrig demoDf ["A", "B"] = some (StatsResult.stats
      { total_spots := (["A", "B"] : List String).length
        total_time_minutes :=
          (([⟨"A", 33, 130, 60, 5⟩,
             ⟨"B", 34, 131, 30, 3⟩] : List Spot).map Spot.minTime).sum
        total_distance_km := pyRound (legsSum idTrig
          [⟨"A", 33, 130, 60, 5⟩, ⟨"B", 34, 131, 30, 3⟩]) 2
        average_recommend_score := pyRound
          ((([⟨"A", 33, 130, 60, 5⟩,
              ⟨"B", 34, 131, 30, 3⟩] : List Spot).map Spot.score).sum /
            ((["A", "B"] : List String).length : ℚ)) 1
        efficiency_score := pyRound
          ((([⟨"A", 33, 130, 60, 5⟩,
              ⟨"B", 34, 131, 30, 3⟩] : List Spot).map Spot.score).sum /
           ((([⟨"A", 33, 130, 60, 5⟩,
               ⟨"B", 34, 131, 30, 3⟩] : List Spot).map
              Spot.minTime).sum / 60)) 2 }) ∧
    (∃ st, calculate_route_stats idTrig demoDf ["A"] =
        some (StatsResult.stats st) ∧
      st.total_distance_km = 0 ∧ st.total_spots = 1) :=
  ⟨⟨by decide, by decide, by decide⟩,
   route_stats_spec.2.1 idTrig demoDf ["A", "B"]
     [⟨"A", 33, 130, 60, 5⟩, ⟨"B", 34, 131, 30, 3⟩]
     (by decide) (by decide),
   route_stats_spec.2.2 idTrig demoDf "A" ⟨"A", 33, 130, 60, 5⟩
     (by decide)⟩

/-- C10: on a non-empty route whose stops all resolve in the catalog with
strictly positive minimum durations (the data-model precondition), both
divisions of `calculate_route_stats` — by `len(route)` and by
`total_time / 60` — have non-zero divisors. -/
theorem route_stats_divisors_nonzero (T : TrigOps) (df : List Spot)
    (route : List String) (hne : route ≠ [])
    (hfound : ∀ sp ∈ route, ∃ d, findSpot df sp = some d ∧ 0 < d.minTime) :
    ∃ t dist s, statsFold T df route = some (t, dist, s) ∧ 0 < t ∧
      (route.length : ℚ) ≠ 0 ∧ t / 60 ≠ 0 := by
  have hfound' : ∀ sp ∈ route, (findSpot df sp).isSome := by
    intro sp h
    rcases hfound sp h with ⟨d, hd, _⟩
    simp [hd]
  rcases omapM_isSome (findSpot df) hfound' with ⟨ds, hds⟩
  have hdspos : ∀ d ∈ ds, 0 < d.minTime := by
    intro d hd
    rcases omapM_mem_exists (findSpot df) hds d hd with ⟨sp, hsp, hfsp⟩
    rcases hfound sp hsp with ⟨d', hd', hpos⟩
    rw [hfsp] at hd'
    exact (Option.some_inj.mp hd') ▸ hpos
  have hdsne : ds ≠ [] := by
    have hlen := omapM_length (findSpot df) hds
    intro hnil
    rw [hnil] at hlen
    cases route with
    | nil => exact hne rfl
    | cons a rest => simp at hlen
  have htpos : 0 < (ds.map Spot.minTime).sum := by
    rcases List.exists_cons_of_ne_nil hdsne with ⟨d0, ds', rfl⟩
    have h0 : 0 < d0.minTime := hdspos d0 (List.mem_cons_self d0 ds')
    have hrest : 0 ≤ (ds'.map Spot.minTime).sum := by
      apply List.sum_nonneg
      intro x hx
      rcases List.mem_map.mp hx with ⟨d, hd, rfl⟩
      exact le_of_lt (hdspos d (List.mem_cons_of_mem d0 hd))
    simp only [List.map_cons, List.sum_cons]
    linarith
  refine ⟨(ds.map Spot.minTime).sum, legsSum T ds, (ds.map Spot.score).sum,
    statsFold_closed T df route ds hds, htpos, ?_, ?_⟩
  · have : 0 < route.length := List.length_pos.mpr hne
    exact_mod_cast Nat.cast_ne_zero.mpr (by omega)
  · exact div_ne_zero (ne_of_gt htpos) (by norm_num)

/-- Witness for C10 on the demo catalog. -/
theorem route_stats_divisors_nonzero_witness :
    ((["A", "B"] : List String) ≠ [] ∧
      (∀ sp ∈ (["A", "B"] : List String),
        ∃ d, findSpot demoDf sp = some d ∧ 0 < d.minTime)) ∧
    (∃ t dist s, statsFold idTrig demoDf ["A", "B"] = some (t, dist, s) ∧
      0 < t ∧ ((["A", "B"] : List String).length : ℚ) ≠ 0 ∧ t / 60 ≠ 0) := by
  have h1 : (["A", "B"] : List String) ≠ [] := by decide
  have h2 : ∀ sp ∈ (["A", "B"] : List String),
      ∃ d, findSpot demoDf sp = some d ∧ 0 < d.minTime := by
    intro sp hsp
    rcases List.mem_cons.mp hsp with rfl | hsp2
    · exact ⟨⟨"A", 33, 130, 60, 5⟩, rfl, by norm_num⟩
    · rcases List.mem_cons.mp hsp2 with rfl | hsp3
      · exact ⟨⟨"B", 34, 131, 30, 3⟩, rfl, by norm_num⟩
      · exact absurd hsp3 (List.not_mem_nil sp)
  exact ⟨⟨h1, h2⟩,
    route_stats_divisors_nonzero idTrig demoDf ["A", "B"] h1 h2⟩

end RouteOpt

namespace RouteOpt

theorem bind_some_eq_map {α β : Type} (x : Option α) (f : α → β) :
    (x.bind fun a => some (f a)) = x.map f := by
  cases x <;> rfl

/-- C4: with at least two candidates, if a user location is supplied the
first stop chosen by `optimize_route` is the first encountered minimum of
proximity rank (from that location) plus time-efficiency rank over all
candidates; with no user location it is the first encountered maximum of
the recommendation score.  `specFirstArgmin`/`specFirstArgmax` are the
spec-worded "first encountered optimum wins" reference selectors. -/
theorem first_stop_spec (T : TrigOps) (df : List Spot)
    (selected : List String) (h2 : 2 ≤ selected.length)
    (hnd : selected.Nodup)
    (hfound : ∀ sp ∈ selected, (findSpot df sp).isSome) :
    (∀ lat lon : ℚ, ∃ dr tr scored p r,
      calculate_distance_ranking_from_location T df lat lon selected =
        some dr ∧
      calculate_time_decrease_rate_ranking df selected = some tr ∧
      omapM (fun sp => do
        let a ← List.lookup sp dr
        let b ← List.lookup sp tr
        pure ((sp, a + b) : String × ℕ)) selected = some scored ∧
      specFirstArgmin scored = some p ∧
      optimize_route T df selected (some (lat, lon)) = some r ∧
      r.head? = some p.1) ∧
    (∃ keyed q r,
      omapM (fun sp => do
        let d ← findSpot df sp
        pure ((sp, d.score) : String × ℚ)) selected = some keyed ∧
      specFirstArgmax keyed = some q ∧
      optimize_route T df selected none = some r ∧
      r.head? = some q.1) := by
  have h1 : ¬selected.length ≤ 1 := by omega
  have hloop : ∀ b : String, b ∈ selected →
      ∃ ext, optimizeLoopAux T df (selected.erase b).length
          (selected.erase b) b [b] =
        some ([b] ++ ext, (selected.erase b).length) := by
    intro b hb
    rcases optimizeLoopAux_spec T df (selected.erase b).length
      (selected.erase b) b [b] rfl
      (fun sp hsp => hfound sp (List.mem_of_mem_erase hsp))
      (hfound b hb) with ⟨ext, hrec, _⟩
    exact ⟨ext, hrec⟩
  constructor
  · intro lat lon
    rcases dist_ranking_from_loc_some T df lat lon selected hfound with
      ⟨dists, hdists, hdkeys, hdr⟩
    rcases time_ranking_some df selected hfound with
      ⟨effs, heffs, hekeys, htr⟩
    have hdrkeys := ranked_asc_keys_perm dists selected hdkeys
    have htrkeys := ranked_desc_keys_perm effs selected hekeys
    rcases scores_some (rankify 1 (sortAscBySnd dists))
        (rankify 1 (sortDescBySnd effs)) selected
        (fun sp hsp => hdrkeys.mem_iff.mpr hsp)
        (fun sp hsp => htrkeys.mem_iff.mpr hsp) with
      ⟨scored, hscored, hskeys⟩
    have hne : ∃ q qs, scored = q :: qs := by
      cases selected with
      | nil => simp at h2
      | cons s0 stail =>
        cases scored with
        | nil => simp at hskeys
        | cons q qs => exact ⟨q, qs, rfl⟩
    rcases hne with ⟨q, qs, rfl⟩
    rcases pyMin_isSome q qs with ⟨best, hbest⟩
    have hbfst : best.1 ∈ selected := by
      rw [← hskeys]
      exact List.mem_map_of_mem Prod.fst (pyMin_mem hbest)
    rcases hloop best.1 hbfst with ⟨ext, hrec⟩
    refine ⟨rankify 1 (sortAscBySnd dists), rankify 1 (sortDescBySnd effs),
      q :: qs, best, best.1 :: ext, hdr, htr, hscored,
      (pyMin_eq_spec (q :: qs)).symm.trans hbest, ?_, rfl⟩
    rw [optimize_route, optimizeRouteAux_loc T df selected lat lon h1, hdr,
      Option.some_bind, htr, Option.some_bind, hscored, Option.some_bind,
      hbest, Option.some_bind, hrec, Option.some_bind]
    rfl
  · rcases keyed_scores_some df selected hfound with ⟨keyed, hkeyed, hkkeys⟩
    have hne : ∃ q qs, keyed = q :: qs := by
      cases selected with
      | nil => simp at h2
      | cons s0 stail =>
        cases keyed with
        | nil => simp at hkkeys
        | cons q qs => exact ⟨q, qs, rfl⟩
    rcases hne with ⟨q, qs, rfl⟩
    rcases pyMax_isSome q qs with ⟨best, hbest⟩
    have hbfst : best.1 ∈ selected := by
      rw [← hkkeys]
      exact List.mem_map_of_mem Prod.fst (pyMax_mem hbest)
    rcases hloop best.1 hbfst with ⟨ext, hrec⟩
    refine ⟨q :: qs, best, best.1 :: ext, hkeyed,
      (pyMax_eq_spec (q :: qs)).symm.trans hbest, ?_, rfl⟩
    rw [optimize_route, optimizeRouteAux_none T df selected h1, hkeyed,
      Option.some_bind, hbest, Option.some_bind, hrec, Option.some_bind]
    rfl

/-- Witness for C4 on the demo catalog with both seeding modes. -/
theorem first_stop_spec_witness :
    ((2 : ℕ) ≤ (["A", "B"] : List String).length ∧
      (["A", "B"] : List String).Nodup ∧
      (∀ sp ∈ (["A", "B"] : List String), (findSpot demoDf sp).isSome)) ∧
    ((∀ lat lon : ℚ, ∃ dr tr scored p r,
      calculate_distance_ranking_from_location idTrig demoDf lat lon
        ["A", "B"] = some dr ∧
      calculate_time_decrease_rate_ranking demoDf ["A", "B"] = some tr ∧
      omapM (fun sp => do
        let a ← List.lookup sp dr
        let b ← List.lookup sp tr
        pure ((sp, a + b) : String × ℕ)) ["A", "B"] = some scored ∧
      specFirstArgmin scored = some p ∧
      optimize_route idTrig demoDf ["A", "B"] (some (lat, lon)) = some r ∧
      r.head? = some p.1) ∧
    (∃ keyed q r,
      omapM (fun sp => do
        let d ← findSpot demoDf sp
        pure ((sp, d.score) : String × ℚ)) ["A", "B"] = some keyed ∧
      specFirstArgmax keyed = some q ∧
      optimize_route idTrig demoDf ["A", "B"] none = some r ∧
      r.head? = some q.1)) :=
  ⟨⟨by decide, by decide, by decide⟩,
   first_stop_spec idTrig demoDf ["A", "B"] (by decide) (by decide)
     (by decide)⟩

end RouteOpt

namespace RouteOpt

/-- C3: at every step after the first, while candidates remain, the loop of
`optimize_route` chooses the first encountered minimum of
efficiency rank + proximity rank over the remaining candidates, where the
time-efficiency ranking is ranks 1..N assigned along a reordering of the
per-candidate `recommendation_score / minimum_duration` values sorted
descending, and the proximity ranking is ranks 1..N assigned along a
reordering of the distances from the current stop sorted ascending; the
chosen candidate is appended to the route, removed from the remaining set,
and becomes the new current stop. -/
theorem subsequent_stop_spec (T : TrigOps) (df : List Spot) (fuel : ℕ)
    (sp0 : String) (rest : List String) (current : String)
    (route : List String) (hnd : (sp0 :: rest).Nodup)
    (hfound : ∀ sp ∈ sp0 :: rest, (findSpot df sp).isSome)
    (hcur : (findSpot df current).isSome) :
    ∃ effs dists tr dr scored p,
      omapM (fun sp => do
        let d ← findSpot df sp
        pure ((sp, d.score / d.minTime) : String × ℚ)) (sp0 :: rest) =
          some effs ∧
      calculate_time_decrease_rate_ranking df (sp0 :: rest) = some tr ∧
      tr = rankify 1 (sortDescBySnd effs) ∧
      (sortDescBySnd effs).Perm effs ∧
      (sortDescBySnd effs).Pairwise (fun a b => b.2 ≤ a.2) ∧
      tr.map Prod.snd = List.range' 1 (sp0 :: rest).length ∧
      (∃ curd, findSpot df current = some curd ∧
        omapM (fun sp => do
          let d ← findSpot df sp
          pure ((sp, calculate_distance T curd.lat curd.lon d.lat d.lon) :
            String × ℚ)) (sp0 :: rest) = some dists) ∧
      calculate_distance_ranking T df (some current) (sp0 :: rest) =
        some dr ∧
      dr = rankify 1 (sortAscBySnd dists) ∧
      (sortAscBySnd dists).Perm dists ∧
      (sortAscBySnd dists).Pairwise (fun a b => a.2 ≤ b.2) ∧
      dr.map Prod.snd = List.range' 1 (sp0 :: rest).length ∧
      omapM (fun sp => do
        let a ← List.lookup sp tr
        let b ← List.lookup sp dr
        pure ((sp, a + b) : String × ℕ)) (sp0 :: rest) = some scored ∧
      specFirstArgmin scored = some p ∧ p.1 ∈ sp0 :: rest ∧
      optimizeLoopAux T df (fuel + 1) (sp0 :: rest) current route =
        (optimizeLoopAux T df fuel ((sp0 :: rest).erase p.1) p.1
          (route ++ [p.1])).map (fun rk => (rk.1, rk.2 + 1)) := by
  rcases time_ranking_some df (sp0 :: rest) hfound with
    ⟨effs, heffs, hekeys, htr⟩
  rcases dist_ranking_some T df current (sp0 :: rest) hcur hfound with
    ⟨curd, dists, hcurd, hdists, hdkeys, hdr⟩
  have htrkeys := ranked_desc_keys_perm effs (sp0 :: rest) hekeys
  have hdrkeys := ranked_asc_keys_perm dists (sp0 :: rest) hdkeys
  rcases scores_some (rankify 1 (sortDescBySnd effs))
      (rankify 1 (sortAscBySnd dists)) (sp0 :: rest)
      (fun sp hsp => htrkeys.mem_iff.mpr hsp)
      (fun sp hsp => hdrkeys.mem_iff.mpr hsp) with
    ⟨scored, hscored, hskeys⟩
  have hne : ∃ q qs, scored = q :: qs := by
    cases scored with
    | nil => simp at hskeys
    | cons q qs => exact ⟨q, qs, rfl⟩
  rcases hne with ⟨q, qs, rfl⟩
  rcases pyMin_isSome q qs with ⟨best, hbest⟩
  have hbfst : best.1 ∈ sp0 :: rest := by
    rw [← hskeys]
    exact List.mem_map_of_mem Prod.fst (pyMin_mem hbest)
  have hlen_eq : (sortDescBySnd effs).length = (sp0 :: rest).length := by
    rw [(sortDescBySnd_perm effs).length_eq]
    have := congrArg List.length hekeys
    simpa using this
  have hlen_eq' : (sortAscBySnd dists).length = (sp0 :: rest).length := by
    rw [(sortAscBySnd_perm dists).length_eq]
    have := congrArg List.length hdkeys
    simpa using this
  refine ⟨effs, dists, rankify 1 (sortDescBySnd effs),
    rankify 1 (sortAscBySnd dists), q :: qs, best, heffs, htr, rfl,
    sortDescBySnd_perm effs, sortDescBySnd_pairwise effs, ?_,
    ⟨curd, hcurd, hdists⟩, hdr, rfl, sortAscBySnd_perm dists,
    sortAscBySnd_pairwise dists, ?_, hscored,
    (pyMin_eq_spec (q :: qs)).symm.trans hbest, hbfst, ?_⟩
  · rw [rankify_map_snd, hlen_eq]
  · rw [rankify_map_snd, hlen_eq']
  · rw [optimizeLoopAux_cons, htr, Option.some_bind, hdr, Option.some_bind,
      hscored, Option.some_bind, hbest, Option.some_bind,
      bind_some_eq_map]

/-- Witness for C3 on the demo catalog: one loop step with remaining
`["A", "B"]` and current stop `"C"`. -/
theorem subsequent_stop_spec_witness :
    ((["A", "B"] : List String).Nodup ∧
      (∀ sp ∈ (["A", "B"] : List String), (findSpot demoDf sp).isSome) ∧
      (findSpot demoDf "C").isSome) ∧
    (∃ effs dists tr dr scored p,
      omapM (fun sp => do
        let d ← findSpot demoDf sp
        pure ((sp, d.score / d.minTime) : String × ℚ)) ["A", "B"] =
          some effs ∧
      calculate_time_decrease_rate_ranking demoDf ["A", "B"] = some tr ∧
      tr = rankify 1 (sortDescBySnd effs) ∧
      (sortDescBySnd effs).Perm effs ∧
      (sortDescBySnd effs).Pairwise (fun a b => b.2 ≤ a.2) ∧
      tr.map Prod.snd = List.range' 1 (["A", "B"] : List String).length ∧
      (∃ curd, findSpot demoDf "C" = some curd ∧
        omapM (fun sp => do
          let d ← findSpot demoDf sp
          pure ((sp,
            calculate_distance idTrig curd.lat curd.lon d.lat d.lon) :
            String × ℚ)) ["A", "B"] = some dists) ∧
      calculate_distance_ranking idTrig demoDf (some "C") ["A", "B"] =
        some dr ∧
      dr = rankify 1 (sortAscBySnd dists) ∧
      (sortAscBySnd dists).Perm dists ∧
      (sortAscBySnd dists).Pairwise (fun a b => a.2 ≤ b.2) ∧
      dr.map Prod.snd = List.range' 1 (["A", "B"] : List String).length ∧
      omapM (fun sp => do
        let a ← List.lookup sp tr
        let b ← List.lookup sp dr
        pure ((sp, a + b) : String × ℕ)) ["A", "B"] = some scored ∧
      specFirstArgmin scored = some p ∧ p.1 ∈ (["A", "B"] : List String) ∧
      optimizeLoopAux idTrig demoDf (1 + 1) ["A", "B"] "C" ["C"] =
        (optimizeLoopAux idTrig demoDf 1 ((["A", "B"] : List String).erase
          p.1) p.1 (["C"] ++ [p.1])).map (fun rk => (rk.1, rk.2 + 1))) :=
  ⟨⟨by decide, by decide, by decide⟩,
   subsequent_stop_spec idTrig demoDf 1 "A" ["B"] "C" ["C"] (by decide)
     (by decide) (by decide)⟩

end RouteOpt
